import Mathlib

/-!
Shallow embedding of components of the CCL cosmology library: the emulator
plumbing and bounds-validation subsystem (`EmulatorObject`, the
`PowerSpectrumEmulator` dispatch protocol, the lazy-load cache), the
`MassFuncSheth99` halo mass function, and the `HaloProfileCIBShang12` CIB
profile.  The emulator module itself is not among the provided source files;
its behaviour is modelled from the specification, with the concrete Python
exception classes pinned by the repository's test-suite
(`pyccl/tests/test_emulator.py`).  Numeric parameter and table values are
modelled as integers (`Int`); none of the verified properties depend on
non-integral arithmetic.
-/

namespace CCL

/-- Python exception classes raised by the emulator subsystem, as pinned by
`pyccl/tests/test_emulator.py`: `pytest.raises(ValueError)` for malformed
bounds, out-of-bounds proposals, wrong bounds types and unknown backend
names; `pytest.raises(NotImplementedError)` for absent backend hooks. -/
inductive PyExcClass where
  | valueError
  | notImplementedError
  deriving DecidableEq, Repr

/-- The specification's error taxonomy for the emulator subsystem. -/
inductive EmuFailure where
  | invalidConfiguration
  | outOfBounds
  | unknownBackend
  | notImplementedForBackend
  deriving DecidableEq, Repr

/-- The Python exception class under which each taxonomy failure is raised.
Derived from the source test-suite: `test_bounds_raises_warns` catches
`ValueError` for inverted bounds and for out-of-bounds proposals,
`test_bounds_types` catches `ValueError` for an unsupported bounds type,
`test_emulator_from_name_raises` catches `ValueError` for an unknown name,
and `test_power_spectum_emulator_funcs` /
`test_power_spectrum_emulator_baryon_raises` catch `NotImplementedError`
for missing hooks. -/
def pyClassOf : EmuFailure → PyExcClass
  | .invalidConfiguration => .valueError
  | .outOfBounds => .valueError
  | .unknownBackend => .valueError
  | .notImplementedForBackend => .notImplementedError

/-- A parameter proposal: mapping from parameter name to numeric value. -/
abbrev Proposal := List (String × Int)

/-- A Box bounds mapping: parameter name to (low, high). -/
abbrev Box := List (String × Int × Int)

/-- A Box is well formed when every pair satisfies low ≤ high. -/
def boxValid (b : Box) : Bool :=
  b.all fun e => decide (e.2.1 ≤ e.2.2)

/-- Modelled from the spec: `Bounds.check_bounds` of the emulator module
(absent from the provided sources).  For every key present in both the
bounds and the proposal, fail with `OutOfBounds` when the proposal value
lies outside [low, high]; proposal keys with no bounds entry are skipped. -/
def check_bounds_box (b : Box) : Proposal → Except EmuFailure Unit
  | [] => .ok ()
  | (k, v) :: rest =>
    match b.lookup k with
    | Option.none => check_bounds_box b rest
    | some (lo, hi) =>
      if lo ≤ v ∧ v ≤ hi then check_bounds_box b rest
      else .error .outOfBounds

/-- The value of an `EmulatorObject` attribute slot: either the Python
`NotImplemented` sentinel, a stored `Bounds` object, or a stored callable.
One inductive serves both the `bounds` and the `check_bounds` slots, so
"both slots hold the same sentinel" is expressible as equality. -/
inductive EmuAttr where
  | notImpl
  | boxB (b : Box)
  | fn (f : Proposal → Except EmuFailure Unit)

/-- Modelled from the spec: the state of an `EmulatorObject` — an opaque
model reference, the bounds representation and the bounds-check slot. -/
structure EmulatorObject (M : Type) where
  model : Option M
  bounds : EmuAttr
  check_bounds : EmuAttr

/-- The bounds input accepted by the `EmulatorObject` constructor: `None`,
a callable, a Box mapping, or any other (unsupported) Python value —
the last modelled by its textual form, e.g. the string used in the test. -/
inductive BoundsInput where
  | noneB
  | callable (f : Proposal → Except EmuFailure Unit)
  | box (b : Box)
  | other (s : String)

/-- Modelled from the spec: `EmulatorObject.__init__` (absent from the
provided sources).  `None` stores the `NotImplemented` sentinel in both
slots; a callable is stored unchanged as the check function; a Box mapping
is validated (every low ≤ high) and stored, failing with
`InvalidConfiguration` at construction time otherwise; any other input
fails with `InvalidConfiguration` at construction time. -/
def EmulatorObject.init (M : Type) (model : Option M) :
    BoundsInput → Except EmuFailure (EmulatorObject M)
  | .noneB => .ok ⟨model, .notImpl, .notImpl⟩
  | .callable f => .ok ⟨model, .notImpl, .fn f⟩
  | .box b =>
    if boxValid b then .ok ⟨model, .boxB b, .fn (check_bounds_box b)⟩
    else .error .invalidConfiguration
  | .other _ => .error .invalidConfiguration

/-- Modelled from the spec: invoking the stored check on a proposal.  The
`NotImplemented` sentinel is treated as a no-op, never an error. -/
def EmulatorObject.runCheck {M : Type} (e : EmulatorObject M) (p : Proposal) :
    Except EmuFailure Unit :=
  match e.check_bounds with
  | .notImpl => .ok ()
  | .fn f => f p
  | .boxB b => check_bounds_box b p

/-- A tabulated power spectrum: ordered scale-factor axis, ordered
wavenumber axis, and a 2D array of power values indexed by
(scale factor, wavenumber). -/
structure PkTable where
  a_arr : List Int
  k_arr : List Int
  pk : List (List Int)
  deriving DecidableEq, Repr

/-- Pointwise multiplication of a power-spectrum table by a boost table on
the matching (a, k) grid; the result is a new table carrying the base
table's axes. -/
def mulTables (p boost : PkTable) : PkTable :=
  ⟨p.a_arr, p.k_arr, List.zipWith (List.zipWith (· * ·)) p.pk boost.pk⟩

/-- The cosmology collaborator, reduced to what the emulator core consumes:
a parameter proposal and a baseline linear power spectrum. -/
structure Cosmo where
  params : Proposal
  linear_power : PkTable

/-- Modelled from the spec: the capability set of a concrete
`PowerSpectrumEmulator` backend.  Each hook is optional; `Option.none`
models the absence of the method on the backend class (duck-typed
`hasattr` dispatch). -/
structure PSEmulatorBackend where
  get_pk_linear_hook : Option (Cosmo → PkTable)
  get_pk_nonlin_hook : Option (Cosmo → PkTable)
  get_nonlin_boost_hook : Option (Cosmo → PkTable)
  get_baryon_boost_hook : Option (Cosmo → PkTable)

/-- Modelled from the spec: `get_pk_linear` — invoke the `_get_pk_linear`
hook when present, else fail with the "not implemented" error. -/
def get_pk_linear (b : PSEmulatorBackend) (c : Cosmo) :
    Except EmuFailure PkTable :=
  match b.get_pk_linear_hook with
  | some f => .ok (f c)
  | Option.none => .error .notImplementedForBackend

/-- Modelled from the spec: the baseline linear spectrum used by the
nonlinear-boost fallback — the backend's own `_get_pk_linear` when it has
one, else the cosmology's own linear computation. -/
def baseline_linear (b : PSEmulatorBackend) (c : Cosmo) : PkTable :=
  match b.get_pk_linear_hook with
  | some f => f c
  | Option.none => c.linear_power

/-- Modelled from the spec: `get_pk_nonlin` fallback order, first match
wins — `_get_pk_nonlin` directly; else `_get_nonlin_boost` applied
multiplicatively to a baseline linear spectrum; else the
"not implemented" error. -/
def get_pk_nonlin (b : PSEmulatorBackend) (c : Cosmo) :
    Except EmuFailure PkTable :=
  match b.get_pk_nonlin_hook with
  | some f => .ok (f c)
  | Option.none =>
    match b.get_nonlin_boost_hook with
    | some g => .ok (mulTables (baseline_linear b c) (g c))
    | Option.none => .error .notImplementedForBackend

/-- Modelled from the spec: `include_baryons` — look up `_get_baryon_boost`
on the target backend at call time; if absent fail with "not implemented",
else multiply the given nonlinear table by the boost and return the
product as a new table. -/
def include_baryons (b : PSEmulatorBackend) (c : Cosmo) (pk : PkTable) :
    Except EmuFailure PkTable :=
  match b.get_baryon_boost_hook with
  | some f => .ok (mulTables pk (f c))
  | Option.none => .error .notImplementedForBackend

/-- Dynamically (re)installing `_get_baryon_boost` on the backend class, as
the test-suite does with `setattr`. -/
def setBaryonBoost (b : PSEmulatorBackend) (f : Cosmo → PkTable) :
    PSEmulatorBackend :=
  { b with get_baryon_boost_hook := some f }

/-- Modelled from the spec: the per-backend-instance lazy-load cache — the
cached model (if loaded) and how many times `_load_emu` has executed. -/
structure LoadState (M : Type) where
  model_cache : Option M
  load_count : Nat
  deriving DecidableEq, Repr

/-- Modelled from the spec: registration stores the backend class only;
no load happens at registration time. -/
def registeredState (M : Type) : LoadState M := ⟨Option.none, 0⟩

/-- Modelled from the spec: the check-and-populate step run by every
predict-style call — reuse the cached model when present, else execute the
backend's `_load_emu` (whose result is `load_emu`) and cache it. -/
def ensure_loaded {M : Type} (load_emu : M) (s : LoadState M) :
    M × LoadState M :=
  match s.model_cache with
  | some m => (m, s)
  | Option.none => (load_emu, ⟨some load_emu, s.load_count + 1⟩)

/-- A sequence of `n` predict-style calls on one backend instance. -/
def run_predict_calls {M : Type} (load_emu : M) :
    Nat → LoadState M → LoadState M
  | 0, s => s
  | Nat.succ n, s => run_predict_calls load_emu n (ensure_loaded load_emu s).2

/-- Modelled from the spec: the round-trippable text representation of a
stored `Bounds` object (Python `repr` of the underlying dict, re-parsed by
`eval` in the test `test_bounds_repr`), at token granularity: string and
numeric literals are kept atomic. -/
inductive BTok where
  | lbrace
  | rbrace
  | comma
  | colon
  | lbrack
  | rbrack
  | strT (s : String)
  | numT (v : Int)
  deriving DecidableEq, Repr

/-- The rendering of one bounds entry: `'name': [low, high]`. -/
def renderEntry (e : String × Int × Int) : List BTok :=
  [.strT e.1, .colon, .lbrack, .numT e.2.1, .comma, .numT e.2.2, .rbrack]

/-- The rendering of the entries after the first one, each preceded by a
comma, closed by the final brace. -/
def renderTail : Box → List BTok
  | [] => [.rbrace]
  | e :: es => .comma :: (renderEntry e ++ renderTail es)

/-- The rendering of a dict body: the closing brace alone when empty, else
the first entry followed by the comma-separated rest. -/
def renderHead : Box → List BTok
  | [] => [.rbrace]
  | e :: es => renderEntry e ++ renderTail es

/-- Modelled from the spec: `repr` of a stored Box bounds — the braced
dict display of quoted keys and two-element range lists, tokenised. -/
def renderBox (b : Box) : List BTok :=
  .lbrace :: renderHead b

/-- Parse one bounds entry, returning it and the remaining tokens. -/
def parseEntry : List BTok → Option ((String × Int × Int) × List BTok)
  | .strT k :: .colon :: .lbrack :: .numT lo :: .comma :: .numT hi ::
      .rbrack :: rest => some ((k, lo, hi), rest)
  | _ => none

/-- Parse the entries after the first one (each preceded by a comma) up to
the closing brace; `fuel` bounds the recursion depth. -/
def parseTail : Nat → List BTok → Option (Box × List BTok)
  | _, .rbrace :: rest => some ([], rest)
  | Nat.succ fuel, .comma :: ts =>
    match parseEntry ts with
    | some (e, ts1) =>
      match parseTail fuel ts1 with
      | some (es, rest) => some (e :: es, rest)
      | Option.none => none
    | Option.none => none
  | _, _ => none

/-- Parse a dict body: either the immediate closing brace (empty dict) or
a first entry followed by the comma-separated rest. -/
def parseHead : List BTok → Option Box
  | .rbrace :: rest => if rest.isEmpty then some [] else none
  | .strT k :: .colon :: .lbrack :: .numT lo :: .comma :: .numT hi ::
      .rbrack :: ts2 =>
    match parseTail ts2.length ts2 with
    | some (es, rest) => if rest.isEmpty then some ((k, lo, hi) :: es) else none
    | Option.none => none
  | _ => none

/-- Modelled from the spec: re-parsing the text representation of a Box
bounds (the `eval` side of the round trip). -/
def parseBox (ts : List BTok) : Option Box :=
  match ts with
  | .lbrace :: ts1 => parseHead ts1
  | _ => none

/-- Modelled from the spec: `PowerSpectrumEmulator.from_name` — exact-match
lookup in the name-keyed registry, failing with `UnknownBackend` when no
entry matches. -/
def from_name {B : Type} (registry : List (String × B)) (n : String) :
    Except EmuFailure B :=
  match registry.lookup n with
  | some cls => .ok cls
  | Option.none => .error .unknownBackend

/-- The `Delta` attribute of a mass definition: either a string tag
("fof", "vir") or an overdensity number. -/
inductive DeltaVal where
  | str (s : String)
  | num (n : Nat)
  deriving DecidableEq, Repr

/-- A mass definition, reduced to the attribute the Sheth99 check reads. -/
structure MassDef where
  Delta : DeltaVal
  deriving DecidableEq, Repr

/-- The state of a constructed `MassFuncSheth99` instance. -/
structure MassFuncSheth99 where
  mass_def : MassDef
  mass_def_strict : Bool
  use_delta_c_fit : Bool
  deriving DecidableEq, Repr

/-- `MassFuncSheth99._check_mass_def_strict` (pyccl/halos/hmfunc/sheth99.py,
lines 52-53): flag the mass definition as disallowed exactly when its
`Delta` attribute differs from "fof". -/
def MassFuncSheth99.check_mass_def_strict (md : MassDef) : Bool :=
  md.Delta != .str "fof"

/-- Modelled from the spec: the `MassFunc` base constructor (not among the
provided sources).  Per the class documentation, with `mass_def_strict`
set it only allows the mass definitions the relation was fitted for and
raises when `_check_mass_def_strict` flags the definition. -/
def MassFuncSheth99.init (mass_def : MassDef)
    (mass_def_strict use_delta_c_fit : Bool) : Option MassFuncSheth99 :=
  if mass_def_strict && MassFuncSheth99.check_mass_def_strict mass_def then
    none
  else
    some ⟨mass_def, mass_def_strict, use_delta_c_fit⟩

/-- The NFW profile held internally by the CIB profile
(`HaloProfileNFW(concentration=concentration)`); only its stored
concentration matters here. -/
structure HaloProfileNFW (C : Type) where
  concentration : C

/-- The state of a `HaloProfileCIBShang12` instance
(pyccl/halos/profiles/cib_shang12.py, `__init__`): the ten numeric
parameters, the concentration-mass relation and the internal NFW
profile. -/
structure HaloProfileCIBShang12 (C : Type) where
  nu : ℚ
  alpha : ℚ
  T0 : ℚ
  beta : ℚ
  gamma : ℚ
  s_z : ℚ
  l10meff : ℚ
  sigLM : ℚ
  Mmin : ℚ
  L0 : ℚ
  concentration : C
  pNFW : HaloProfileNFW C

/-- `HaloProfileCIBShang12.__init__`: stores the parameters and builds the
internal NFW profile from the given concentration. -/
def HaloProfileCIBShang12.init {C : Type} (concentration : C)
    (nu_GHz alpha T0 beta gamma s_z log10meff sigLM Mmin L0 : ℚ) :
    HaloProfileCIBShang12 C :=
  ⟨nu_GHz, alpha, T0, beta, gamma, s_z, log10meff, sigLM, Mmin, L0,
   concentration, ⟨concentration⟩⟩

/-- `HaloProfileCIBShang12.update_parameters` (cib_shang12.py, lines
119-158): each parameter passed as non-`None` overwrites the matching
field; `None` arguments leave their field untouched. -/
def HaloProfileCIBShang12.update_parameters {C : Type}
    (p : HaloProfileCIBShang12 C)
    (nu_GHz alpha T0 beta gamma s_z log10meff sigLM Mmin L0 : Option ℚ) :
    HaloProfileCIBShang12 C :=
  let p := match nu_GHz with
    | some v => { p with nu := v }
    | Option.none => p
  let p := match alpha with
    | some v => { p with alpha := v }
    | Option.none => p
  let p := match T0 with
    | some v => { p with T0 := v }
    | Option.none => p
  let p := match beta with
    | some v => { p with beta := v }
    | Option.none => p
  let p := match gamma with
    | some v => { p with gamma := v }
    | Option.none => p
  let p := match s_z with
    | some v => { p with s_z := v }
    | Option.none => p
  let p := match log10meff with
    | some v => { p with l10meff := v }
    | Option.none => p
  let p := match sigLM with
    | some v => { p with sigLM := v }
    | Option.none => p
  let p := match Mmin with
    | some v => { p with Mmin := v }
    | Option.none => p
  let p := match L0 with
    | some v => { p with L0 := v }
    | Option.none => p
  p

/-- The well-formed Box bounds used in the test-suite. -/
def demoBox : Box := [("a", 0, 1), ("b", 0, 1)]

/-- The inverted Box bounds used in the test-suite (second pair has
low > high). -/
def demoBadBox : Box := [("a", 0, 1), ("b", 1, 0)]

/-- The out-of-bounds proposal used in the test-suite. -/
def demoProposal : Proposal := [("a", 0), ("b", -1)]

/-- A small concrete linear power-spectrum table. -/
def demoLin : PkTable := ⟨[1], [1, 2], [[3, 5]]⟩

/-- A small concrete nonlinear power-spectrum table. -/
def demoNonlin : PkTable := ⟨[1], [1, 2], [[7, 11]]⟩

/-- A small concrete boost table. -/
def demoBoost : PkTable := ⟨[1], [1, 2], [[2, 4]]⟩

/-- A concrete cosmology: one parameter and a linear spectrum. -/
def demoCosmo : Cosmo := ⟨[("sigma8", 1)], demoLin⟩

/-- A backend defining none of the optional hooks. -/
def emptyBackend : PSEmulatorBackend :=
  ⟨Option.none, Option.none, Option.none, Option.none⟩

/-- A backend defining only `_get_pk_nonlin`. -/
def nonlinOnlyBackend : PSEmulatorBackend :=
  ⟨Option.none, some fun _ => demoNonlin, Option.none, Option.none⟩

/-- A backend defining only `_get_nonlin_boost`. -/
def boostOnlyBackend : PSEmulatorBackend :=
  ⟨Option.none, Option.none, some fun _ => demoBoost, Option.none⟩

/-- C1: `get_pk_nonlin` follows the fallback order: a backend defining
`_get_pk_nonlin` has that hook called and its result returned as the
power-spectrum table; otherwise a backend defining `_get_nonlin_boost` has
a baseline linear spectrum obtained and multiplied by the boost; a backend
lacking both hooks always fails with the "not implemented" error. -/
theorem get_pk_nonlin_dispatch (b : PSEmulatorBackend) (c : Cosmo) :
    (∀ f, b.get_pk_nonlin_hook = some f → get_pk_nonlin b c = .ok (f c)) ∧
    (∀ g, b.get_pk_nonlin_hook = Option.none →
      b.get_nonlin_boost_hook = some g →
      get_pk_nonlin b c = .ok (mulTables (baseline_linear b c) (g c))) ∧
    (b.get_pk_nonlin_hook = Option.none →
      b.get_nonlin_boost_hook = Option.none →
      get_pk_nonlin b c = .error .notImplementedForBackend) := by
  refine ⟨fun f hf => ?_, fun g hn hg => ?_, fun hn hg => ?_⟩
  · simp [get_pk_nonlin, hf]
  · simp [get_pk_nonlin, hn, hg]
  · simp [get_pk_nonlin, hn, hg]

/-- C1 witness: a backend with only `_get_pk_nonlin` succeeds with the
hook's table, one with only `_get_nonlin_boost` succeeds with the boosted
baseline, one with neither fails. -/
theorem get_pk_nonlin_dispatch_witness :
    get_pk_nonlin nonlinOnlyBackend demoCosmo = .ok demoNonlin ∧
    get_pk_nonlin boostOnlyBackend demoCosmo =
      .ok (mulTables (baseline_linear boostOnlyBackend demoCosmo) demoBoost) ∧
    get_pk_nonlin emptyBackend demoCosmo =
      .error .notImplementedForBackend :=
  ⟨(get_pk_nonlin_dispatch nonlinOnlyBackend demoCosmo).1 _ rfl,
   (get_pk_nonlin_dispatch boostOnlyBackend demoCosmo).2.1 _ rfl rfl,
   (get_pk_nonlin_dispatch emptyBackend demoCosmo).2.2 rfl rfl⟩

/-- C2 counterexample: the three failure kinds are not pairwise
distinguishable by Python exception class — `OutOfBounds` and
`UnknownBackend` are both raised as `ValueError`, so "wrong parameters"
cannot be told from "wrong name" by the error class alone. -/
theorem emu_error_classes_not_pairwise_distinct :
    ¬(pyClassOf .notImplementedForBackend ≠ pyClassOf .outOfBounds ∧
      pyClassOf .notImplementedForBackend ≠ pyClassOf .unknownBackend ∧
      pyClassOf .outOfBounds ≠ pyClassOf .unknownBackend) := by
  decide

/-- C2 amended: the "not implemented" failure is raised as
`NotImplementedError`, a class distinct from the `ValueError` used for the
out-of-bounds and unknown-name failures, so "wrong backend chosen" is
detectable by class alone; out-of-bounds and unknown-name however share
the class `ValueError`. -/
theorem emu_error_classes_amended :
    pyClassOf .notImplementedForBackend ≠ pyClassOf .outOfBounds ∧
    pyClassOf .notImplementedForBackend ≠ pyClassOf .unknownBackend ∧
    pyClassOf .outOfBounds = pyClassOf .unknownBackend := by
  decide

/-- C3: `include_baryons` fails with the "not implemented" error when the
backend lacks `_get_baryon_boost`, and the same call succeeds after the
hook is restored (presence is read from the backend value at call time);
on success a new table is returned, carrying the input's axes, and in
this pure model the input table is untouched. -/
theorem include_baryons_dynamic (b : PSEmulatorBackend) (c : Cosmo)
    (pk : PkTable) (f : Cosmo → PkTable)
    (h : b.get_baryon_boost_hook = Option.none) :
    include_baryons b c pk = .error .notImplementedForBackend ∧
    include_baryons (setBaryonBoost b f) c pk = .ok (mulTables pk (f c)) ∧
    (mulTables pk (f c)).a_arr = pk.a_arr ∧
    (mulTables pk (f c)).k_arr = pk.k_arr := by
  refine ⟨?_, ?_, rfl, rfl⟩
  · simp [include_baryons, h]
  · simp [include_baryons, setBaryonBoost]

/-- C3 witness: on a backend without the baryon hook the call fails; with
the hook installed the same call returns the boosted table. -/
theorem include_baryons_dynamic_witness :
    include_baryons emptyBackend demoCosmo demoNonlin =
      .error .notImplementedForBackend ∧
    include_baryons (setBaryonBoost emptyBackend fun _ => demoBoost)
      demoCosmo demoNonlin = .ok (mulTables demoNonlin demoBoost) :=
  ⟨(include_baryons_dynamic emptyBackend demoCosmo demoNonlin
      (fun _ => demoBoost) rfl).1,
   (include_baryons_dynamic emptyBackend demoCosmo demoNonlin
      (fun _ => demoBoost) rfl).2.1⟩

/-- C7: construction with bounds `None` stores the same `NotImplemented`
sentinel as both the bounds representation and the check slot, and
invoking the stored check is a no-op that never raises; construction with
a callable stores that exact callable as the check while the bounds
representation is the sentinel. -/
theorem emulator_init_none_callable (M : Type) (model : Option M)
    (f : Proposal → Except EmuFailure Unit) (p : Proposal) :
    EmulatorObject.init M model .noneB = .ok ⟨model, .notImpl, .notImpl⟩ ∧
    EmulatorObject.runCheck
      (⟨model, .notImpl, .notImpl⟩ : EmulatorObject M) p = .ok () ∧
    EmulatorObject.init M model (.callable f) =
      .ok ⟨model, .notImpl, .fn f⟩ :=
  ⟨rfl, rfl, rfl⟩

/-- C4: constructing an `EmulatorObject` with a Box bounds mapping in which
some key has low > high, or with a bounds input that is none of the three
supported variants, fails with `InvalidConfiguration` at construction time
(no object is produced, so nothing can be deferred to check time). -/
theorem emulator_init_invalid_configuration (M : Type) (model : Option M)
    (b : Box) (s : String) (h : ∃ k lo hi, (k, lo, hi) ∈ b ∧ hi < lo) :
    EmulatorObject.init M model (.box b) = .error .invalidConfiguration ∧
    EmulatorObject.init M model (.other s) = .error .invalidConfiguration := by
  constructor
  · obtain ⟨k, lo, hi, hmem, hlt⟩ := h
    have hv : boxValid b = false := by
      rw [Bool.eq_false_iff]
      intro hall
      rw [boxValid, List.all_eq_true] at hall
      have hle := hall (k, lo, hi) hmem
      simp only [decide_eq_true_eq] at hle
      omega
    simp [EmulatorObject.init, hv]
  · rfl

/-- C4 witness: the test-suite's inverted bounds and string input. -/
theorem emulator_init_invalid_configuration_witness :
    (∃ k lo hi, (k, lo, hi) ∈ demoBadBox ∧ hi < lo) ∧
    EmulatorObject.init Unit Option.none (.box demoBadBox) =
      .error .invalidConfiguration ∧
    EmulatorObject.init Unit Option.none (.other "something_else") =
      .error .invalidConfiguration :=
  ⟨⟨"b", 1, 0, by decide, by decide⟩,
   emulator_init_invalid_configuration Unit Option.none demoBadBox
     "something_else" ⟨"b", 1, 0, by decide, by decide⟩⟩

/-- Once the cache is populated, further predict-style calls leave the
load state untouched. -/
theorem run_predict_calls_loaded {M : Type} (l m : M) (c : Nat) :
    ∀ n, run_predict_calls l n ⟨some m, c⟩ = ⟨some m, c⟩ := by
  intro n
  induction n with
  | zero => rfl
  | succ k ih =>
    simp only [run_predict_calls, ensure_loaded]
    exact ih

/-- C8: over any sequence of predict-style calls on one backend instance,
`_load_emu` executes at most once — exactly once as soon as some call
needs the model — the loaded model is cached for the lifetime of the
instance and reused (unchanged state, same model returned) by every later
call, and no load happens at registration time. -/
theorem load_emu_at_most_once {M : Type} (l : M) (n : Nat) :
    ((run_predict_calls l n (registeredState M)).load_count =
      if n = 0 then 0 else 1) ∧
    ((run_predict_calls l n (registeredState M)).model_cache =
      if n = 0 then Option.none else some l) ∧
    (registeredState M).load_count = 0 ∧
    (∀ m c, ensure_loaded l (⟨some m, c⟩ : LoadState M) = (m, ⟨some m, c⟩)) := by
  have key : run_predict_calls l n (registeredState M) =
      if n = 0 then registeredState M else ⟨some l, 1⟩ := by
    cases n with
    | zero => rfl
    | succ k =>
      simp only [run_predict_calls, registeredState, ensure_loaded,
        if_neg (Nat.succ_ne_zero k)]
      exact run_predict_calls_loaded l l 1 k
  refine ⟨?_, ?_, rfl, fun m c => rfl⟩ <;> rw [key] <;> cases n <;> rfl

/-- C9: `update_parameters` sets exactly the fields whose arguments are
passed non-`None` and leaves every other field unchanged — including the
concentration and the internal NFW profile, which it never touches; with
all arguments `None` the whole instance is unchanged. -/
theorem update_parameters_frame {C : Type} (p : HaloProfileCIBShang12 C)
    (nu_GHz alpha T0 beta gamma s_z log10meff sigLM Mmin L0 : Option ℚ) :
    p.update_parameters nu_GHz alpha T0 beta gamma s_z log10meff sigLM
        Mmin L0 =
      { p with
        nu := nu_GHz.getD p.nu
        alpha := alpha.getD p.alpha
        T0 := T0.getD p.T0
        beta := beta.getD p.beta
        gamma := gamma.getD p.gamma
        s_z := s_z.getD p.s_z
        l10meff := log10meff.getD p.l10meff
        sigLM := sigLM.getD p.sigLM
        Mmin := Mmin.getD p.Mmin
        L0 := L0.getD p.L0 } ∧
    p.update_parameters Option.none Option.none Option.none Option.none
      Option.none Option.none Option.none Option.none Option.none
      Option.none = p := by
  constructor
  · cases nu_GHz <;> cases alpha <;> cases T0 <;> cases beta <;>
      cases gamma <;> cases s_z <;> cases log10meff <;> cases sigLM <;>
      cases Mmin <;> cases L0 <;> rfl
  · rfl

/-- C10: `_check_mass_def_strict` flags a mass definition as disallowed
exactly when its `Delta` attribute differs from "fof"; hence with
`mass_def_strict` set, construction succeeds exactly for FoF mass
definitions. -/
theorem sheth99_strict_fof (md : MassDef) (u : Bool) :
    (MassFuncSheth99.check_mass_def_strict md = true ↔
      md.Delta ≠ .str "fof") ∧
    ((MassFuncSheth99.init md true u).isSome = true ↔
      md.Delta = .str "fof") := by
  constructor
  · simp [MassFuncSheth99.check_mass_def_strict]
  · by_cases h : md.Delta = DeltaVal.str "fof" <;>
      simp [MassFuncSheth99.init, MassFuncSheth99.check_mass_def_strict, h]

/-- A proposal entry with no bounds entry for its key is skipped. -/
theorem check_bounds_box_cons_absent (b : Box) (k : String) (v : Int)
    (rest : Proposal) (hl : b.lookup k = Option.none) :
    check_bounds_box b ((k, v) :: rest) = check_bounds_box b rest := by
  simp [check_bounds_box, hl]

/-- A proposal entry inside its declared range is passed over. -/
theorem check_bounds_box_cons_in (b : Box) (k : String) (v lo hi : Int)
    (rest : Proposal) (hl : b.lookup k = some (lo, hi))
    (hin : lo ≤ v ∧ v ≤ hi) :
    check_bounds_box b ((k, v) :: rest) = check_bounds_box b rest := by
  simp [check_bounds_box, hl, hin]

/-- A proposal entry outside its declared range fails immediately. -/
theorem check_bounds_box_cons_out (b : Box) (k : String) (v lo hi : Int)
    (rest : Proposal) (hl : b.lookup k = some (lo, hi))
    (hout : ¬(lo ≤ v ∧ v ≤ hi)) :
    check_bounds_box b ((k, v) :: rest) = .error .outOfBounds := by
  simp [check_bounds_box, hl, hout]

/-- C5: for a well-formed Box bounds and any proposal, `check_bounds`
fails with `OutOfBounds` exactly when some key present in both the bounds
and the proposal carries a proposal value outside [low, high]; in
particular bounds keys absent from the proposal never cause an error. -/
theorem check_bounds_box_oob_iff (b : Box) (p : Proposal)
    (hb : boxValid b = true) :
    check_bounds_box b p = .error .outOfBounds ↔
      ∃ k v lo hi, (k, v) ∈ p ∧ b.lookup k = some (lo, hi) ∧
        (v < lo ∨ hi < v) := by
  induction p with
  | nil => simp [check_bounds_box]
  | cons e rest ih =>
    obtain ⟨k, v⟩ := e
    cases hl : b.lookup k with
    | none =>
      rw [check_bounds_box_cons_absent b k v rest hl, ih]
      constructor
      · rintro ⟨k1, v1, lo1, hi1, hm, hlk, hout⟩
        exact ⟨k1, v1, lo1, hi1, List.mem_cons_of_mem _ hm, hlk, hout⟩
      · rintro ⟨k1, v1, lo1, hi1, hm, hlk, hout⟩
        rcases List.mem_cons.mp hm with heq | hm2
        · rw [Prod.mk.injEq] at heq
          obtain ⟨hk, hv⟩ := heq
          subst hk
          rw [hl] at hlk
          exact Option.noConfusion hlk
        · exact ⟨k1, v1, lo1, hi1, hm2, hlk, hout⟩
    | some lohi =>
      obtain ⟨lo, hi⟩ := lohi
      by_cases hin : lo ≤ v ∧ v ≤ hi
      · rw [check_bounds_box_cons_in b k v lo hi rest hl hin, ih]
        constructor
        · rintro ⟨k1, v1, lo1, hi1, hm, hlk, hout⟩
          exact ⟨k1, v1, lo1, hi1, List.mem_cons_of_mem _ hm, hlk, hout⟩
        · rintro ⟨k1, v1, lo1, hi1, hm, hlk, hout⟩
          rcases List.mem_cons.mp hm with heq | hm2
          · rw [Prod.mk.injEq] at heq
            obtain ⟨hk, hv⟩ := heq
            subst hk
            subst hv
            rw [hl, Option.some_inj, Prod.mk.injEq] at hlk
            obtain ⟨h1, h2⟩ := hlk
            subst h1
            subst h2
            exfalso
            omega
          · exact ⟨k1, v1, lo1, hi1, hm2, hlk, hout⟩
      · rw [check_bounds_box_cons_out b k v lo hi rest hl hin]
        constructor
        · intro _
          exact ⟨k, v, lo, hi, List.mem_cons_self _ _, hl, by omega⟩
        · intro _
          rfl

/-- C5 witness: the test-suite's bounds and out-of-range proposal. -/
theorem check_bounds_box_oob_iff_witness :
    boxValid demoBox = true ∧
    check_bounds_box demoBox demoProposal = .error .outOfBounds :=
  ⟨by decide,
   (check_bounds_box_oob_iff demoBox demoProposal (by decide)).mpr
     ⟨"b", -1, 0, 1, by decide, by decide, by decide⟩⟩

/-- Parsing a rendered entry recovers it and leaves the rest untouched. -/
theorem parseEntry_renderEntry (e : String × Int × Int) (ts : List BTok) :
    parseEntry (renderEntry e ++ ts) = some (e, ts) := by
  obtain ⟨k, lo, hi⟩ := e
  rfl

/-- The rendered tail is at least as long as the number of entries. -/
theorem length_le_length_renderTail (es : Box) :
    es.length ≤ (renderTail es).length := by
  induction es with
  | nil => simp [renderTail]
  | cons e tl ih =>
    simp only [renderTail, renderEntry, List.length_cons, List.length_append]
    omega

/-- Parsing a rendered tail recovers the entries, given enough fuel. -/
theorem parseTail_renderTail (es : Box) :
    ∀ fuel, es.length ≤ fuel →
      parseTail fuel (renderTail es) = some (es, []) := by
  induction es with
  | nil =>
    intro fuel _
    cases fuel <;> rfl
  | cons e tl ih =>
    intro fuel hf
    cases fuel with
    | zero => simp at hf
    | succ n =>
      have h1 := parseEntry_renderEntry e (renderTail tl)
      have h2 := ih n (by simp only [List.length_cons] at hf; omega)
      simp only [renderTail, parseTail, h1, h2]

/-- Parsing a rendered dict body recovers the bounds mapping. -/
theorem parseHead_renderHead (b : Box) : parseHead (renderHead b) = some b := by
  cases b with
  | nil => rfl
  | cons e es =>
    obtain ⟨k, lo, hi⟩ := e
    have h2 := parseTail_renderTail es (renderTail es).length
      (length_le_length_renderTail es)
    simp only [renderHead, renderEntry, List.cons_append, List.nil_append]
    simp only [parseHead, h2]
    rfl

/-- C6: a valid Box bounds is stored as the bounds representation of the
constructed object, and re-parsing its text representation reproduces a
mapping equal to the original bounds mapping (round trip). -/
theorem bounds_repr_roundtrip (M : Type) (model : Option M) (b : Box)
    (hb : boxValid b = true) :
    EmulatorObject.init M model (.box b) =
      .ok ⟨model, .boxB b, .fn (check_bounds_box b)⟩ ∧
    parseBox (renderBox b) = some b := by
  constructor
  · simp [EmulatorObject.init, hb]
  · exact parseHead_renderHead b

/-- C6 witness: the round trip at the test-suite's bounds mapping. -/
theorem bounds_repr_roundtrip_witness :
    boxValid demoBox = true ∧
    parseBox (renderBox demoBox) = some demoBox :=
  ⟨by decide, (bounds_repr_roundtrip Unit Option.none demoBox (by decide)).2⟩

end CCL
